import Mathlib

/-!
Verification of the bank-statement-parser repository.

The Rust sources build statement parsers from the `nom` combinator library.
This file gives a shallow embedding: input is a `List Char`, a parser is a
function from input to a result that either succeeds with the remaining
suffix and a value, fails with an error kind (`nom::Err::Error`), or hits a
Rust panic (`Option::unwrap` on `None`, out-of-range slice, arithmetic
overflow in debug builds).  Machine integers (`i32`, `u32`) are modelled as
`Nat`/`Int` with the explicit range checks that the Rust code performs
(`str::parse::<i32>` rejects out-of-range digit strings; `.unwrap()` on the
result is a panic).  The running `i32` sums used by the totals checks are
modelled as exact integers; each summand is within `i32` range.
`chrono::NaiveDate` is modelled as a year/month/day triple with the
proleptic-Gregorian validity rule used by `NaiveDate::from_ymd_opt`.
-/

set_option maxRecDepth 8000
set_option maxHeartbeats 2000000

/-- Error kinds: `verify` models `nom::error::ErrorKind::Verify` (the totals
checks); every other `nom` error kind is collapsed into `other`. -/
inductive ErrKind : Type where
  | verify : ErrKind
  | other : ErrKind
deriving DecidableEq, Repr

/-- Result of running a parser: success with the remaining input suffix and a
value, a recoverable `nom` error, or a Rust panic. -/
inductive PResult (α : Type) : Type where
  | ok (rest : List Char) (val : α) : PResult α
  | err (kind : ErrKind) : PResult α
  | panicked : PResult α
deriving DecidableEq, Repr

abbrev Parser (α : Type) : Type := List Char → PResult α

/-- Sequencing: run `p`, then feed its value to `f` on the remaining input.
This is the `let (input, x) = p(input)?;` pattern of the Rust code. -/
def pbind {α β : Type} (p : Parser α) (f : α → Parser β) : Parser β := fun input =>
  match p input with
  | .ok rest v => f v rest
  | .err k => .err k
  | .panicked => .panicked

def pureP {α : Type} (a : α) : Parser α := fun input => .ok input a

/-- nom `map`. -/
def pmap {α β : Type} (p : Parser α) (f : α → β) : Parser β :=
  pbind p fun v => pureP (f v)

/-- nom `combinator::map_opt`: failure of `f` is a parse error. -/
def mapOpt {α β : Type} (p : Parser α) (f : α → Option β) : Parser β := fun input =>
  match p input with
  | .ok rest v =>
    match f v with
    | some b => .ok rest b
    | none => .err .other
  | .err k => .err k
  | .panicked => .panicked

/-- nom `bytes::complete::tag`. -/
def tag (t : List Char) : Parser (List Char) := fun input =>
  if t.isPrefixOf input then .ok (input.drop t.length) t else .err .other

/-- nom `character::complete::char`. -/
def charP (c : Char) : Parser Char := fun input =>
  match input with
  | c' :: rest => if c' = c then .ok rest c else .err .other
  | [] => .err .other

/-- nom `character::complete::anychar`. -/
def anychar : Parser Char := fun input =>
  match input with
  | c :: rest => .ok rest c
  | [] => .err .other

/-- Longest prefix whose characters satisfy `p`, together with the rest. -/
def spanGo (p : Char → Bool) : List Char → List Char × List Char
  | [] => ([], [])
  | c :: t =>
    if p c then
      let s := spanGo p t
      (c :: s.1, s.2)
    else ([], c :: t)

/-- One-or-more characters satisfying `p` (the shape of nom's `digit1`,
`alpha1`, `multispace1`, `is_a`). -/
def takeWhile1 (p : Char → Bool) : Parser (List Char) := fun input =>
  match spanGo p input with
  | ([], _) => .err .other
  | (ds, rest) => .ok rest ds

def takeWhile0 (p : Char → Bool) : Parser (List Char) := fun input =>
  match spanGo p input with
  | (ds, rest) => .ok rest ds

def digit1 : Parser (List Char) := takeWhile1 Char.isDigit

def alpha1 : Parser (List Char) := takeWhile1 Char.isAlpha

def isSpaceChar (c : Char) : Bool := c = ' ' || c = '\t' || c = '\r' || c = '\n'

def multispace0 : Parser (List Char) := takeWhile0 isSpaceChar

def multispace1 : Parser (List Char) := takeWhile1 isSpaceChar

/-- nom `bytes::complete::is_a`. -/
def isA (set : List Char) : Parser (List Char) := takeWhile1 (fun c => set.contains c)

/-- nom `character::complete::not_line_ending`: zero or more characters other
than `\r`/`\n`; a `\r` not followed by `\n` is an error. -/
def notLineEnding : Parser (List Char) := fun input =>
  match spanGo (fun c => c ≠ '\r' && c ≠ '\n') input with
  | (s, rest) =>
    match rest with
    | '\r' :: tail =>
      match tail with
      | '\n' :: _ => .ok rest s
      | _ => .err .other
    | _ => .ok rest s

def newlineP : Parser Char := charP '\n'

/-- nom `combinator::opt`. -/
def optP {α : Type} (p : Parser α) : Parser (Option α) := fun input =>
  match p input with
  | .ok rest v => .ok rest (some v)
  | .err _ => .ok input none
  | .panicked => .panicked

/-- nom `combinator::peek`. -/
def peek {α : Type} (p : Parser α) : Parser α := fun input =>
  match p input with
  | .ok _ v => .ok input v
  | .err k => .err k
  | .panicked => .panicked

/-- nom `branch::alt` for two alternatives. -/
def alt2 {α : Type} (p q : Parser α) : Parser α := fun input =>
  match p input with
  | .err _ => q input
  | r => r

/-- nom `combinator::value`. -/
def valueP {α β : Type} (v : β) (p : Parser α) : Parser β := pmap p fun _ => v

/-- nom `combinator::cond`. -/
def condP {α : Type} (b : Bool) (p : Parser α) : Parser (Option α) := fun input =>
  if b then
    match p input with
    | .ok rest v => .ok rest (some v)
    | .err k => .err k
    | .panicked => .panicked
  else .ok input none

/-- nom `combinator::recognize`: all parsers in this file consume a prefix of
their input, so the consumed slice is the length difference. -/
def recognize {α : Type} (p : Parser α) : Parser (List Char) := fun input =>
  match p input with
  | .ok rest _ => .ok rest (input.take (input.length - rest.length))
  | .err k => .err k
  | .panicked => .panicked

def preceded {α β : Type} (p : Parser α) (q : Parser β) : Parser β :=
  pbind p fun _ => q

def terminated {α β : Type} (p : Parser α) (q : Parser β) : Parser α :=
  pbind p fun v => pbind q fun _ => pureP v

def delimited {α β γ : Type} (p : Parser α) (q : Parser β) (r : Parser γ) : Parser β :=
  pbind p fun _ => pbind q fun v => pbind r fun _ => pureP v

def sepPair {α β γ : Type} (p : Parser α) (s : Parser β) (q : Parser γ) :
    Parser (α × γ) :=
  pbind p fun a => pbind s fun _ => pbind q fun c => pureP (a, c)

/-- Loop of nom `multi::many0`, with explicit fuel so that the definition is
structurally recursive (and hence reduces inside the kernel).  Every inner
parser used with it consumes at least one character on success, and the fuel
passed at the call sites exceeds the input length, so the fuel never runs
out; a zero-length inner match is an error, as in nom. -/
def many0Fuel {α : Type} (p : Parser α) : Nat → Parser (List α)
  | 0 => fun _ => .err .other
  | fuel + 1 => fun input =>
    match p input with
    | .err _ => .ok input []
    | .panicked => .panicked
    | .ok rest a =>
      if rest.length < input.length then
        match many0Fuel p fuel rest with
        | .ok r as => .ok r (a :: as)
        | e => e
      else .err .other

def many0 {α : Type} (p : Parser α) : Parser (List α) := fun input =>
  many0Fuel p (input.length + 1) input

/-- nom `multi::many1`. -/
def many1 {α : Type} (p : Parser α) : Parser (List α) := fun input =>
  match p input with
  | .err k => .err k
  | .panicked => .panicked
  | .ok rest a =>
    match many0Fuel p (rest.length + 1) rest with
    | .ok r as => .ok r (a :: as)
    | e => e

/-- nom `multi::many1_count`. -/
def many1Count {α : Type} (p : Parser α) : Parser Nat := fun input =>
  match many1 p input with
  | .ok rest as => .ok rest as.length
  | .err k => .err k
  | .panicked => .panicked

/-- Loop of nom `multi::separated_list0`: each iteration parses the separator
then an element, backtracking over the separator when the element fails. -/
def sepLoopFuel {σ α : Type} (sep : Parser σ) (p : Parser α) : Nat → Parser (List α)
  | 0 => fun _ => .err .other
  | fuel + 1 => fun input =>
    match sep input with
    | .err _ => .ok input []
    | .panicked => .panicked
    | .ok i1 _ =>
      match p i1 with
      | .err _ => .ok input []
      | .panicked => .panicked
      | .ok rest a =>
        if rest.length < input.length then
          match sepLoopFuel sep p fuel rest with
          | .ok r as => .ok r (a :: as)
          | e => e
        else .err .other

def separatedList0 {σ α : Type} (sep : Parser σ) (p : Parser α) : Parser (List α) :=
  fun input =>
  match p input with
  | .err _ => .ok input []
  | .panicked => .panicked
  | .ok rest a =>
    match sepLoopFuel sep p (rest.length + 1) rest with
    | .ok r as => .ok r (a :: as)
    | e => e

/-- nom `multi::separated_list1`. -/
def separatedList1 {σ α : Type} (sep : Parser σ) (p : Parser α) : Parser (List α) :=
  fun input =>
  match p input with
  | .err k => .err k
  | .panicked => .panicked
  | .ok rest a =>
    match sepLoopFuel sep p (rest.length + 1) rest with
    | .ok r as => .ok r (a :: as)
    | e => e

/-- nom `multi::many_till`: try the closer first, otherwise take one element
and repeat. -/
def manyTillFuel {α β : Type} (p : Parser α) (q : Parser β) :
    Nat → Parser (List α × β)
  | 0 => fun _ => .err .other
  | fuel + 1 => fun input =>
    match q input with
    | .ok rest b => .ok rest ([], b)
    | .panicked => .panicked
    | .err _ =>
      match p input with
      | .err k => .err k
      | .panicked => .panicked
      | .ok rest a =>
        if rest.length < input.length then
          match manyTillFuel p q fuel rest with
          | .ok r asb => .ok r (a :: asb.1, asb.2)
          | e => e
        else .err .other

def manyTill {α β : Type} (p : Parser α) (q : Parser β) : Parser (List α × β) :=
  fun input => manyTillFuel p q (input.length + 1) input

/-- First index of `input` at which `t` occurs as a substring. -/
def findSub (t : List Char) : List Char → Option Nat
  | [] => if t.isEmpty then some 0 else none
  | c :: rest =>
    if t.isPrefixOf (c :: rest) then some 0
    else (findSub t rest).map (· + 1)

/-- nom `bytes::complete::take_until`. -/
def takeUntilP (t : List Char) : Parser (List Char) := fun input =>
  match findSub t input with
  | some i => .ok (input.drop i) (input.take i)
  | none => .err .other

/-- Numeric value of a decimal digit string, as in `str::parse`. -/
def digitsToNat (ds : List Char) : Nat :=
  ds.foldl (fun acc c => acc * 10 + (c.toNat - '0'.toNat)) 0

def i32MaxN : Nat := 2147483647

/-- nom `character::complete::u32`: digits with an overflow check (overflow
is a parse error in nom, not a panic). -/
def u32P : Parser Nat := fun input =>
  match digit1 input with
  | .ok rest ds =>
    let v := digitsToNat ds
    if v < 4294967296 then .ok rest v else .err .other
  | .err k => .err k
  | .panicked => .panicked

/-- nom `character::complete::i32`: optional sign, digits, range-checked. -/
def i32P : Parser Int := fun input =>
  let s : List Char × Bool × Bool :=
    match input with
    | '-' :: rest => (rest, true, true)
    | '+' :: rest => (rest, false, true)
    | l => (l, false, false)
  match digit1 s.1 with
  | .ok rest ds =>
    let v := digitsToNat ds
    if s.2.1 then
      if v ≤ 2147483648 then .ok rest (-(v : Int)) else .err .other
    else
      if v ≤ i32MaxN then .ok rest (v : Int) else .err .other
  | .err k => .err k
  | .panicked => .panicked

/-! ## Dates: model of `chrono::NaiveDate`

`from_ymd_opt` validates against the proleptic Gregorian calendar; the extreme
`chrono` year bound (beyond year ±262143) is not modelled, as all dates handled
by the statement grammars are contemporary. -/

structure Date : Type where
  year : Int
  month : Nat
  day : Nat
deriving DecidableEq, Repr

def isLeapYear (y : Int) : Bool := y % 4 = 0 && (y % 100 ≠ 0 || y % 400 = 0)

def daysInMonth (y : Int) (m : Nat) : Nat :=
  if m = 2 then (if isLeapYear y then 29 else 28)
  else if m = 4 ∨ m = 6 ∨ m = 9 ∨ m = 11 then 30
  else 31

/-- Whether `(y, m, d)` denotes a real calendar date. -/
def isValidYmd (y : Int) (m d : Nat) : Bool :=
  decide (1 ≤ m ∧ m ≤ 12 ∧ 1 ≤ d ∧ d ≤ daysInMonth y m)

/-- `chrono::NaiveDate::from_ymd_opt`. -/
def fromYmdOpt (y : Int) (m d : Nat) : Option Date :=
  if isValidYmd y m d then some ⟨y, m, d⟩ else none

/-- `Option::unwrap()` inside a parser: `none` is a Rust panic. -/
def unwrapDate (o : Option Date) : Parser Date := fun input =>
  match o with
  | some d => .ok input d
  | none => .panicked

/-! ## `common_parsers.rs` -/

/-- Lower-case month names accepted by `chrono`'s `Month` `FromStr`
implementation (full names and three-letter abbreviations, matched
case-insensitively), mapped to `number_from_month()`. -/
def monthTable : List (List Char × Nat) :=
  [("january".toList, 1), ("jan".toList, 1),
   ("february".toList, 2), ("feb".toList, 2),
   ("march".toList, 3), ("mar".toList, 3),
   ("april".toList, 4), ("apr".toList, 4),
   ("may".toList, 5),
   ("june".toList, 6), ("jun".toList, 6),
   ("july".toList, 7), ("jul".toList, 7),
   ("august".toList, 8), ("aug".toList, 8),
   ("september".toList, 9), ("sep".toList, 9),
   ("october".toList, 10), ("oct".toList, 10),
   ("november".toList, 11), ("nov".toList, 11),
   ("december".toList, 12), ("dec".toList, 12)]

def monthFromString (s : List Char) : Option Nat :=
  monthTable.lookup (s.map Char.toLower)

/-- `common_parsers::month_word`: `map_res(alpha1, |x| x.parse::<Month>())`. -/
def month_word : Parser Nat := mapOpt alpha1 monthFromString

/-- `common_parsers::month_word_day`. -/
def month_word_day : Parser (Nat × Nat) := sepPair month_word multispace1 u32P

/-- `common_parsers::month_day`. -/
def month_day : Parser (Nat × Nat) := sepPair u32P (charP '/') u32P

/-- `common_parsers::month_day_year`: `M/D/YY` with
`Date::from_ymd_opt(2000 + year, month, day).unwrap()` — the `unwrap` panics
when the triple is not a real date. -/
def month_day_year : Parser Date :=
  pbind u32P fun month =>
  pbind (charP '/') fun _ =>
  pbind u32P fun day =>
  pbind (charP '/') fun _ =>
  pbind i32P fun year =>
  unwrapDate (fromYmdOpt (2000 + year) month day)

/-- `common_parsers::infer_year`. -/
def infer_year (month day : Nat) (start_date : Date) : Option Date :=
  let year := if month < start_date.month then start_date.year + 1 else start_date.year
  fromYmdOpt year month day

/-- `common_parsers::month_word_day_year`. -/
def month_word_day_year : Parser Date :=
  pbind month_word_day fun md =>
  pbind (delimited multispace0 (optP (charP ',')) multispace0) fun _ =>
  mapOpt i32P fun year => fromYmdOpt year md.1 md.2

/-- Concatenation of the digit groups, as
`dollars_strs.into_iter().collect::<String>()`. -/
def joinAll : List (List Char) → List Char
  | [] => []
  | g :: gs => g ++ joinAll gs

/-- The three optional leading characters of `dollar_amount`
(`opt(char('-'))`, `opt(char('+'))`, `opt(char('$'))`); returns the rest and
whether `-` was present. -/
def stripOpt (c : Char) (input : List Char) : List Char × Bool :=
  match input with
  | c' :: rest => if c' = c then (rest, true) else (input, false)
  | [] => (input, false)

def strip3 (input : List Char) : List Char × Bool :=
  let s1 := stripOpt '-' input
  let s2 := stripOpt '+' s1.1
  let s3 := stripOpt '$' s2.1
  (s3.1, s1.2)

/-- `common_parsers::dollar_amount`.  `parse::<i32>().unwrap()` panics on a
digit string whose value exceeds `i32::MAX`, and `dollars * 100 + cents`
overflowing `i32` is a (debug-build) panic as well. -/
def dollar_amount : Parser Int := fun input =>
  let s := strip3 input
  match separatedList0 (charP ',') digit1 s.1 with
  | .err k => .err k
  | .panicked => .panicked
  | .ok i4 dollars_strs =>
    match charP '.' i4 with
    | .err k => .err k
    | .panicked => .panicked
    | .ok i5 _ =>
      match digit1 i5 with
      | .err k => .err k
      | .panicked => .panicked
      | .ok i6 cents_str =>
        let cents := digitsToNat cents_str
        if cents > i32MaxN then .panicked
        else if dollars_strs.length > 0 ∧ digitsToNat (joinAll dollars_strs) > i32MaxN then
          .panicked
        else
          let dollars := if dollars_strs.length > 0 then digitsToNat (joinAll dollars_strs) else 0
          if dollars * 100 + cents > i32MaxN then .panicked
          else
            let absAmount : Int := ((dollars * 100 + cents : Nat) : Int)
            .ok i6 (if s.2 then -absAmount else absAmount)

/-- `common_parsers::take_until_including`. -/
def take_until_including (t : List Char) : Parser Unit :=
  pbind (takeUntilP t) fun _ => pbind (tag t) fun _ => pureP ()

/-! ## `bank_of_america_statement.rs` — its file-local `dollar_amount`

This older variant differs from the shared one: no `opt(char('+'))` and
`separated_list1` (at least one digit group is mandatory). -/

namespace BoaStatement

def strip2 (input : List Char) : List Char × Bool :=
  let s1 := stripOpt '-' input
  let s3 := stripOpt '$' s1.1
  (s3.1, s1.2)

/-- `bank_of_america_statement.rs::dollar_amount`. -/
def dollar_amount : Parser Int := fun input =>
  let s := strip2 input
  match separatedList1 (charP ',') digit1 s.1 with
  | .err k => .err k
  | .panicked => .panicked
  | .ok i4 dollars_strs =>
    match charP '.' i4 with
    | .err k => .err k
    | .panicked => .panicked
    | .ok i5 _ =>
      match digit1 i5 with
      | .err k => .err k
      | .panicked => .panicked
      | .ok i6 cents_str =>
        let cents := digitsToNat cents_str
        if cents > i32MaxN then .panicked
        else if digitsToNat (joinAll dollars_strs) > i32MaxN then .panicked
        else
          let dollars := digitsToNat (joinAll dollars_strs)
          if dollars * 100 + cents > i32MaxN then .panicked
          else
            let absAmount : Int := ((dollars * 100 + cents : Nat) : Int)
            .ok i6 (if s.2 then -absAmount else absAmount)

end BoaStatement

/-! ## `bank_of_america_credit_statement.rs` -/

namespace BoaCredit

inductive TransactionType : Type where
  | credit : TransactionType
  | purchase : TransactionType
  | fee : TransactionType
deriving DecidableEq, Repr

structure Transaction : Type where
  type_ : TransactionType
  date : Date
  posting_date : Date
  description : List Char
  reference_number : List Char
  account_number : List Char
  amount : Int
deriving DecidableEq, Repr

structure BankOfAmericaCreditStatement : Type where
  account_number : List Char
  start_date : Date
  end_date : Date
  start_balance : Int
  end_balance : Int
  transactions : List Transaction
  total_interest : Int
deriving DecidableEq, Repr

/-- `account_number`: `is_a("0123456789 ")`. -/
def account_number : Parser (List Char) := isA "0123456789 ".toList

/-- `transaction`: two inferred dates, a description scanned up to the
reference-number/account-suffix anchor, an amount, then a blank line. -/
def transaction (start_date : Date) (acct : List Char) (tt : TransactionType) :
    Parser Transaction :=
  pbind (mapOpt month_day fun md => infer_year md.1 md.2 start_date) fun date =>
  pbind multispace1 fun _ =>
  pbind (mapOpt month_day fun md => infer_year md.1 md.2 start_date) fun posting_date =>
  pbind multispace1 fun _ =>
  pbind (manyTill anychar
          (preceded multispace1 (sepPair digit1 multispace1 (tag acct)))) fun dra =>
  pbind (preceded multispace1 dollar_amount) fun amount =>
  pbind (tag "\n\n".toList) fun _ =>
  pureP { type_ := tt
          date := date
          posting_date := posting_date
          description := dra.1
          reference_number := dra.2.1
          account_number := dra.2.2
          amount := amount }

/-- The section-total parse: skip to `FOR THIS PERIOD`, whitespace, the stated
amount, then the terminating blank line. -/
def sectionTotal : Parser Int :=
  pbind (preceded (terminated (take_until_including "FOR THIS PERIOD".toList) multispace1)
          dollar_amount) fun total =>
  pbind (tag "\n\n".toList) fun _ =>
  pureP total

def sumAmounts (ts : List Transaction) : Int := (ts.map fun t => t.amount).sum

/-- `transaction_section`: header, `many1` transaction records, the stated
total, and the totals check (`ErrorKind::Verify` on mismatch). -/
def transaction_section (start_date : Date) (acct : List Char)
    (section_header : List Char) (tt : TransactionType) : Parser (List Transaction) :=
  pbind (take_until_including section_header) fun _ =>
  pbind (many1 (transaction start_date acct tt)) fun transactions =>
  pbind sectionTotal fun total =>
  fun input =>
    if sumAmounts transactions ≠ total then .err .verify
    else .ok input transactions

/-- `&account_number[account_number.len() - 4..]`: panics when the token is
shorter than four characters. -/
def sliceSuffix4 (an : List Char) : Parser (List Char) := fun input =>
  if an.length < 4 then .panicked
  else .ok input (an.drop (an.length - 4))

/-- The optional `Fees` section: `peek(opt(tag("Fees\n\n")))`, parsed only
when present. -/
def feesStep (start_date : Date) (suffix : List Char) : Parser (List Transaction) :=
  pbind (peek (optP (tag "Fees\n\n".toList))) fun fees_present =>
  fun input =>
    if fees_present.isSome then
      transaction_section start_date suffix "Fees\n\n".toList TransactionType.fee input
    else .ok input []

/-- Everything `parse_statement` does before the final whole-statement check:
all fields of the statement, in source order. -/
def parse_statement_core : Parser BankOfAmericaCreditStatement :=
  pbind (take_until_including "Account# ".toList) fun _ =>
  pbind account_number fun acct =>
  pbind multispace0 fun _ =>
  pbind (sepPair month_word_day (tag " - ".toList) month_word_day) fun dates =>
  pbind (delimited (tag ", ".toList) i32P multispace0) fun end_year =>
  let start_month := dates.1.1
  let start_day := dates.1.2
  let end_month := dates.2.1
  let end_day := dates.2.2
  let start_year := if start_month > end_month then end_year - 1 else end_year
  pbind (unwrapDate (fromYmdOpt start_year start_month start_day)) fun start_date =>
  pbind (unwrapDate (fromYmdOpt end_year end_month end_day)) fun end_date =>
  pbind (take_until_including "Previous Balance ".toList) fun _ =>
  pbind dollar_amount fun start_balance =>
  pbind (take_until_including "New Balance Total ".toList) fun _ =>
  pbind dollar_amount fun end_balance =>
  pbind (sliceSuffix4 acct) fun suffix =>
  pbind (transaction_section start_date suffix
          "Payments and Other Credits\n\n".toList TransactionType.credit) fun credits =>
  pbind (transaction_section start_date suffix
          "Purchases and Adjustments\n\n".toList TransactionType.purchase) fun purchases =>
  pbind (feesStep start_date suffix) fun fees =>
  pbind (preceded (terminated
          (take_until_including "TOTAL INTEREST CHARGED FOR THIS PERIOD".toList)
          multispace1) dollar_amount) fun total_interest =>
  pureP { account_number := acct
          start_date := start_date
          end_date := end_date
          start_balance := start_balance
          end_balance := end_balance
          transactions := credits ++ purchases ++ fees
          total_interest := total_interest }

/-- `parse_statement`: the parsed fields followed by the whole-statement
arithmetic check. -/
def parse_statement : Parser BankOfAmericaCreditStatement := fun input =>
  match parse_statement_core input with
  | .ok rest st =>
    if st.end_balance - st.start_balance ≠ sumAmounts st.transactions + st.total_interest then
      .err .verify
    else .ok rest st
  | .err k => .err k
  | .panicked => .panicked

end BoaCredit

/-! ## `bank_of_america_debit_statement.rs` -/

namespace BoaDebit

inductive TransactionType : Type where
  | deposit : TransactionType
  | withdrawal : TransactionType
  | fee : TransactionType
deriving DecidableEq, Repr

structure Transaction : Type where
  type_ : TransactionType
  date : Date
  description : List Char
  amount : Int
deriving DecidableEq, Repr

structure BankOfAmericaDebitStatement : Type where
  account_number : List Char
  start_date : Date
  end_date : Date
  start_balance : Int
  end_balance : Int
  transactions : List Transaction
deriving DecidableEq, Repr

/-- `dollar_amount_and_date_or_footer_follows`: an amount whose lookahead is
another transaction date or the section footer.  The peeked
`recognize(month_day_year)` can panic on an invalid peeked date. -/
def dollar_amount_and_date_or_footer_follows (section_footer : List Char) : Parser Int :=
  pbind (preceded multispace0 dollar_amount) fun amount =>
  pbind (peek (preceded multispace0
          (alt2 (recognize month_day_year) (tag section_footer)))) fun _ =>
  pureP amount

/-- `transaction`. -/
def transaction (section_footer : List Char) (tt : TransactionType) : Parser Transaction :=
  pbind month_day_year fun date =>
  pbind multispace1 fun _ =>
  pbind (manyTill anychar (dollar_amount_and_date_or_footer_follows section_footer)) fun da =>
  pbind multispace1 fun _ =>
  pureP { type_ := tt, date := date, description := da.1, amount := da.2 }

/-- The section opening: header anchor plus the column-header line. -/
def sectionOpen (section_header : List Char) : Parser Unit :=
  pbind (take_until_including section_header) fun _ =>
  pbind (delimited multispace0
          (alt2 (tag "Date Description Amount".toList)
                (tag "Date Transaction description Amount".toList))
          multispace0) fun _ =>
  pureP ()

/-- The stated section total: footer, whitespace, amount. -/
def sectionTotal (section_footer : List Char) : Parser Int :=
  pbind (tag section_footer) fun _ =>
  preceded multispace1 dollar_amount

def sumAmounts (ts : List Transaction) : Int := (ts.map fun t => t.amount).sum

/-- `transaction_section`: header, `many0` records, footer, stated total, and
the totals check (`ErrorKind::Verify` on mismatch). -/
def transaction_section (section_header section_footer : List Char)
    (tt : TransactionType) : Parser (List Transaction) :=
  pbind (sectionOpen section_header) fun _ =>
  pbind (many0 (transaction section_footer tt)) fun transactions =>
  pbind (sectionTotal section_footer) fun total =>
  fun input =>
    if sumAmounts transactions ≠ total then .err .verify
    else .ok input transactions

/-- The optional `Service fees` section:
`peek(opt(take_until("Service fees")))`, parsed only when present. -/
def feesStep : Parser (List Transaction) :=
  pbind (peek (optP (takeUntilP "Service fees".toList))) fun fees_present =>
  fun input =>
    if fees_present.isSome then
      transaction_section "Service fees".toList "Total service fees".toList
        TransactionType.withdrawal input
    else .ok input []

/-- Everything `parse_statement` does before the final check. -/
def parse_statement_core : Parser BankOfAmericaDebitStatement :=
  pbind (take_until_including "Account number:".toList) fun _ =>
  pbind (recognize (many1Count (preceded multispace0 digit1))) fun acct =>
  pbind (take_until_including "Beginning balance on ".toList) fun _ =>
  pbind month_word_day_year fun start_date =>
  pbind (preceded multispace0 dollar_amount) fun start_balance =>
  pbind (take_until_including "Ending balance on ".toList) fun _ =>
  pbind month_word_day_year fun end_date =>
  pbind (preceded multispace0 dollar_amount) fun end_balance =>
  pbind (transaction_section "Deposits and other additions".toList
          "Total deposits and other additions".toList TransactionType.deposit) fun deposits =>
  pbind (transaction_section "Withdrawals and other subtractions".toList
          "Total withdrawals and other subtractions".toList
          TransactionType.withdrawal) fun withdrawals =>
  pbind feesStep fun fees =>
  pureP { account_number := acct
          start_date := start_date
          end_date := end_date
          start_balance := start_balance
          end_balance := end_balance
          transactions := deposits ++ withdrawals ++ fees }

/-- `parse_statement`: the parsed fields followed by the whole-statement
arithmetic check. -/
def parse_statement : Parser BankOfAmericaDebitStatement := fun input =>
  match parse_statement_core input with
  | .ok rest st =>
    if st.end_balance - st.start_balance ≠ sumAmounts st.transactions then .err .verify
    else .ok rest st
  | .err k => .err k
  | .panicked => .panicked

end BoaDebit

/-! ## `chase_credit_statement.rs` -/

namespace Chase

inductive TransactionType : Type where
  | credit : TransactionType
  | purchase : TransactionType
  | fee : TransactionType
deriving DecidableEq, Repr

structure Transaction : Type where
  type_ : TransactionType
  date : Date
  description : List Char
  amount : Int
deriving DecidableEq, Repr

structure ChaseCreditStatement : Type where
  account_number : List Char
  start_date : Date
  end_date : Date
  start_balance : Int
  end_balance : Int
  transactions : List Transaction
  total_interest : Int
deriving DecidableEq, Repr

/-- Joins the continuation lines onto the first description line, each
preceded by a line break. -/
def joinDesc (first : List Char) (more : List (List Char)) : List Char :=
  first ++ joinAll (more.map fun s => '\n' :: s)

/-- `transaction`: an indented date (`infer_year(..).unwrap()` — a panic on an
invalid month/day), a description line ending in an amount, then continuation
lines up to the next indented date or a blank line. -/
def transaction (start_date : Date) (tt : TransactionType) : Parser Transaction :=
  pbind (preceded (tag "  ".toList) month_day) fun md =>
  pbind (unwrapDate (infer_year md.1 md.2 start_date)) fun date =>
  pbind multispace1 fun _ =>
  pbind (manyTill anychar (delimited multispace0 dollar_amount newlineP)) fun da =>
  pbind (manyTill (delimited multispace0 notLineEnding newlineP)
          (peek (alt2 (valueP () (preceded (tag "  ".toList) month_day))
                      (valueP () newlineP)))) fun ad =>
  pbind (condP (ad.1.length > 0) newlineP) fun _ =>
  pureP { type_ := tt
          date := date
          description := joinDesc da.1 ad.1
          amount := da.2 }

/-- `transaction_section`: header, blank line, `many0` records — no totals
check in this format. -/
def transaction_section (start_date : Date) (section_header : List Char)
    (tt : TransactionType) : Parser (List Transaction) :=
  pbind (take_until_including section_header) fun _ =>
  pbind (tag "\n\n".toList) fun _ =>
  many0 (transaction start_date tt)

/-- `parse_statement` — note: no whole-statement arithmetic check, and
`total_interest` is hard-coded to `0` (`// TODO: Find total interest`). -/
def parse_statement : Parser ChaseCreditStatement :=
  pbind (take_until_including "ACCOUNT SUMMARY".toList) fun _ =>
  pbind (take_until_including "Account Number: ".toList) fun _ =>
  pbind (recognize (many1Count (preceded multispace0 digit1))) fun acct =>
  pbind (take_until_including "Previous Balance".toList) fun _ =>
  pbind (preceded multispace0 dollar_amount) fun start_balance =>
  pbind (take_until_including "New Balance".toList) fun _ =>
  pbind (preceded multispace0 dollar_amount) fun end_balance =>
  pbind (delimited multispace0 (tag "Opening/Closing Date".toList) multispace0) fun _ =>
  pbind (sepPair month_day_year (tag " - ".toList) month_day_year) fun dates =>
  pbind (take_until_including "ACCOUNT ACTIVITY".toList) fun _ =>
  pbind (transaction_section dates.1 "PAYMENTS AND OTHER CREDITS".toList
          TransactionType.credit) fun credits =>
  pbind (transaction_section dates.1 "PURCHASE".toList TransactionType.purchase) fun purchases =>
  pureP { account_number := acct
          start_date := dates.1
          end_date := dates.2
          start_balance := start_balance
          end_balance := end_balance
          transactions := credits ++ purchases
          total_interest := 0 }

def sumAmounts (ts : List Transaction) : Int := (ts.map fun t => t.amount).sum

end Chase

/-! ## Spec-side text shapes and the canonical formatter

These definitions describe shapes of input texts quoted by the specification
(`[sign]digits[,digits]*.dd`, `sign$whole.dd`); they generate inputs for the
parsers above and never replace them. -/

/-- The optional sign/symbol prefix accepted by `dollar_amount`. -/
def signPrefix (neg plus dollar : Bool) : List Char :=
  (if neg then ['-'] else []) ++ (if plus then ['+'] else []) ++
    (if dollar then ['$'] else [])

/-- Digit groups rendered with `,` before every group after the first. -/
def sepJoin : List (List Char) → List Char
  | [] => []
  | g :: gs => ',' :: (g ++ sepJoin gs)

def joinGroups : List (List Char) → List Char
  | [] => []
  | g :: gs => g ++ sepJoin gs

/-- A currency-amount text: sign prefix, comma-separated digit groups, a
decimal point, fraction digits. -/
def renderA (neg plus dollar : Bool) (gs : List (List Char)) (cs : List Char) :
    List Char :=
  signPrefix neg plus dollar ++ joinGroups gs ++ '.' :: cs

/-- The value `dollar_amount` assigns to such a text. -/
def amountValue (neg : Bool) (gs : List (List Char)) (cs : List Char) : Int :=
  if neg then -(((digitsToNat (joinAll gs) * 100 + digitsToNat cs : Nat) : Int))
  else ((digitsToNat (joinAll gs) * 100 + digitsToNat cs : Nat) : Int)

def digitChar : Nat → Char
  | 0 => '0' | 1 => '1' | 2 => '2' | 3 => '3' | 4 => '4'
  | 5 => '5' | 6 => '6' | 7 => '7' | 8 => '8' | _ => '9'

/-- Decimal digits of `n`, most significant first, prepended to `acc`; the
fuel argument (≥ the number of digits) makes the recursion structural. -/
def natToDigitsAux : Nat → Nat → List Char → List Char
  | 0, _, acc => acc
  | _ + 1, 0, acc => acc
  | fuel + 1, n + 1, acc =>
    natToDigitsAux fuel ((n + 1) / 10) (digitChar ((n + 1) % 10) :: acc)

def natToDigits (n : Nat) : List Char :=
  if n = 0 then ['0'] else natToDigitsAux n n []

/-- Exactly two digits for the cents part. -/
def twoDigits (r : Nat) : List Char := [digitChar (r / 10), digitChar (r % 10)]

/-- Modelled from the spec: the canonical `sign$whole.dd` rendering of an
integer minor-units amount used by the round-trip property of §8; the
repository contains no formatter, so this follows the spec's words. -/
def formatCanonical (v : Int) : List Char :=
  renderA (decide (v < 0)) false true [natToDigits (v.natAbs / 100)]
    (twoDigits (v.natAbs % 100))

/-! ## Concrete sample inputs and their parses -/

/-- A Chase statement text whose balances and transactions are arithmetically
inconsistent (`end - start = -5000` but the amounts sum to `-14500`). -/
def sampleChase : List Char :=
  ("ACCOUNT SUMMARY Account Number: 1234\nPrevious Balance $100.00\nNew Balance $50.00\nOpening/Closing Date 01/01/24 - 01/31/24\nACCOUNT ACTIVITY\nPAYMENTS AND OTHER CREDITS\n\n  1/15 PAYMENT THANK YOU -150.00\n\nPURCHASE\n\n  1/20 COFFEE 5.00\n\n").toList

def sampleChaseSt : Chase.ChaseCreditStatement :=
  { account_number := "1234".toList
    start_date := ⟨2024, 1, 1⟩
    end_date := ⟨2024, 1, 31⟩
    start_balance := 10000
    end_balance := 5000
    transactions :=
      [⟨Chase.TransactionType.credit, ⟨2024, 1, 15⟩, "PAYMENT THANK YOU".toList, -15000⟩,
       ⟨Chase.TransactionType.purchase, ⟨2024, 1, 20⟩, "COFFEE".toList, 500⟩]
    total_interest := 0 }

/-- A Bank of America debit statement with no `Service fees` section. -/
def sampleDebit : List Char :=
  ("Account number: 1234\nBeginning balance on January 1, 2024 $100.00\nEnding balance on January 31, 2024 $50.00\nDeposits and other additions\nDate Description Amount\n01/05/24 DEPOSIT 200.00\nTotal deposits and other additions 200.00\nWithdrawals and other subtractions\nDate Description Amount\n01/10/24 GROCERY -250.00\nTotal withdrawals and other subtractions -250.00\n").toList

def sampleDebitSt : BoaDebit.BankOfAmericaDebitStatement :=
  { account_number := " 1234".toList
    start_date := ⟨2024, 1, 1⟩
    end_date := ⟨2024, 1, 31⟩
    start_balance := 10000
    end_balance := 5000
    transactions :=
      [⟨BoaDebit.TransactionType.deposit, ⟨2024, 1, 5⟩, "DEPOSIT".toList, 20000⟩,
       ⟨BoaDebit.TransactionType.withdrawal, ⟨2024, 1, 10⟩, "GROCERY".toList, -25000⟩] }

/-- `sampleDebit` with the ending balance changed to `$60.00`: every section
total still matches, but the whole-statement equation fails. -/
def sampleDebitBad : List Char :=
  ("Account number: 1234\nBeginning balance on January 1, 2024 $100.00\nEnding balance on January 31, 2024 $60.00\nDeposits and other additions\nDate Description Amount\n01/05/24 DEPOSIT 200.00\nTotal deposits and other additions 200.00\nWithdrawals and other subtractions\nDate Description Amount\n01/10/24 GROCERY -250.00\nTotal withdrawals and other subtractions -250.00\n").toList

def sampleDebitBadSt : BoaDebit.BankOfAmericaDebitStatement :=
  { sampleDebitSt with end_balance := 6000 }

/-- The §8 end-to-end scenario, realised: `Account# 1234 5678 9012 3456`,
range `Jan 1 - Jan 31, 2024`, `Previous Balance $100.00`,
`New Balance Total $50.00`, one credit transaction of `$150.00` referencing
the account suffix — plus the `Purchases and Adjustments` section (with one
`$0.00` purchase) that the grammar makes mandatory, and a stated interest of
`-$200.00` so that the whole-statement check passes. -/
def sampleCredit : List Char :=
  ("Account# 1234 5678 9012 3456\nJan 1 - Jan 31, 2024\nPrevious Balance $100.00\nNew Balance Total $50.00\nPayments and Other Credits\n\n1/15 1/16 PAYMENT THANK YOU 1234567 3456 $150.00\n\nTOTAL PAYMENTS AND OTHER CREDITS FOR THIS PERIOD $150.00\n\nPurchases and Adjustments\n\n1/20 1/21 COFFEE SHOP 7654321 3456 $0.00\n\nTOTAL PURCHASES AND ADJUSTMENTS FOR THIS PERIOD $0.00\n\nTOTAL INTEREST CHARGED FOR THIS PERIOD -200.00\n").toList

def sampleCreditSt : BoaCredit.BankOfAmericaCreditStatement :=
  { account_number := "1234 5678 9012 3456".toList
    start_date := ⟨2024, 1, 1⟩
    end_date := ⟨2024, 1, 31⟩
    start_balance := 10000
    end_balance := 5000
    transactions :=
      [⟨BoaCredit.TransactionType.credit, ⟨2024, 1, 15⟩, ⟨2024, 1, 16⟩,
        "PAYMENT THANK YOU".toList, "1234567".toList, "3456".toList, 15000⟩,
       ⟨BoaCredit.TransactionType.purchase, ⟨2024, 1, 20⟩, ⟨2024, 1, 21⟩,
        "COFFEE SHOP".toList, "7654321".toList, "3456".toList, 0⟩]
    total_interest := -20000 }

/-- The §8 end-to-end scenario exactly as the claim states it: the same text
as `sampleCredit` but with no purchases section (the scenario mentions only
the one credit transaction), all stated totals consistent. -/
def sampleCreditScenario : List Char :=
  ("Account# 1234 5678 9012 3456\nJan 1 - Jan 31, 2024\nPrevious Balance $100.00\nNew Balance Total $50.00\nPayments and Other Credits\n\n1/15 1/16 PAYMENT THANK YOU 1234567 3456 $150.00\n\nTOTAL PAYMENTS AND OTHER CREDITS FOR THIS PERIOD $150.00\n\nTOTAL INTEREST CHARGED FOR THIS PERIOD -200.00\n").toList

/-- `sampleCredit` with the new balance changed to `$60.00`: the section
totals still match but the whole-statement equation fails. -/
def sampleCreditBad : List Char :=
  ("Account# 1234 5678 9012 3456\nJan 1 - Jan 31, 2024\nPrevious Balance $100.00\nNew Balance Total $60.00\nPayments and Other Credits\n\n1/15 1/16 PAYMENT THANK YOU 1234567 3456 $150.00\n\nTOTAL PAYMENTS AND OTHER CREDITS FOR THIS PERIOD $150.00\n\nPurchases and Adjustments\n\n1/20 1/21 COFFEE SHOP 7654321 3456 $0.00\n\nTOTAL PURCHASES AND ADJUSTMENTS FOR THIS PERIOD $0.00\n\nTOTAL INTEREST CHARGED FOR THIS PERIOD -200.00\n").toList

def sampleCreditBadSt : BoaCredit.BankOfAmericaCreditStatement :=
  { sampleCreditSt with end_balance := 6000 }

/-- An input whose `Account# ` anchor is followed by a two-character token:
the suffix slice `&account_number[len - 4..]` is out of range. -/
def sampleShortAccount : List Char :=
  ("Account# 12\nJanuary 1 - January 31, 2024\nPrevious Balance $100.00\nNew Balance Total $50.00\n").toList

/-- A credits-section input for the section-aggregator claim, split at the
three phase boundaries. -/
def sampleSectTotC : List Char :=
  ("TOTAL PAYMENTS AND OTHER CREDITS FOR THIS PERIOD $150.00\n\nEND").toList

def sampleSectBodyC : List Char :=
  ("1/15 1/16 PAYMENT THANK YOU 1234567 3456 $150.00\n\n").toList ++ sampleSectTotC

def sampleSectC : List Char :=
  ("xxPayments and Other Credits\n\n").toList ++ sampleSectBodyC

def sampleSectCTx : BoaCredit.Transaction :=
  ⟨BoaCredit.TransactionType.credit, ⟨2024, 1, 15⟩, ⟨2024, 1, 16⟩,
    "PAYMENT THANK YOU".toList, "1234567".toList, "3456".toList, 15000⟩

/-- A deposits-section input for the debit section aggregator, split at the
phase boundaries. -/
def sampleSectTotD : List Char :=
  ("Total deposits and other additions 200.00\nZ").toList

def sampleSectBodyD : List Char :=
  ("01/05/24 DEPOSIT 200.00\n").toList ++ sampleSectTotD

def sampleSectD : List Char :=
  ("xDeposits and other additions\nDate Description Amount\n").toList ++ sampleSectBodyD

def sampleSectDTx : BoaDebit.Transaction :=
  ⟨BoaDebit.TransactionType.deposit, ⟨2024, 1, 5⟩, "DEPOSIT".toList, 20000⟩

/-! # Theorems -/

/-! ## Scanning lemmas -/

theorem isDigit_ne_marks {c : Char} (h : c.isDigit = true) :
    c ≠ '-' ∧ c ≠ '+' ∧ c ≠ '$' ∧ c ≠ ',' ∧ c ≠ '.' := by
  refine ⟨?_, ?_, ?_, ?_, ?_⟩ <;> rintro rfl <;> exact absurd h (by decide)

theorem spanGo_eval (p : Char → Bool) (ds rest : List Char)
    (h2 : ∀ c ∈ ds, p c = true) (h3 : ∀ c, rest.head? = some c → p c = false) :
    spanGo p (ds ++ rest) = (ds, rest) := by
  induction ds with
  | nil =>
    cases rest with
    | nil => rfl
    | cons c t => simp [spanGo, h3 c rfl]
  | cons c t ih =>
    have hc := h2 c (by simp)
    simp [spanGo, hc, ih fun x hx => h2 x (by simp [hx])]

theorem takeWhile1_eval (p : Char → Bool) (ds rest : List Char) (h1 : ds ≠ [])
    (h2 : ∀ c ∈ ds, p c = true) (h3 : ∀ c, rest.head? = some c → p c = false) :
    takeWhile1 p (ds ++ rest) = .ok rest ds := by
  cases ds with
  | nil => exact absurd rfl h1
  | cons c t =>
    have h := spanGo_eval p (c :: t) rest h2 h3
    rw [List.cons_append] at h
    simp [takeWhile1, h]

theorem takeWhile1_fail (p : Char → Bool) (input : List Char)
    (h : ∀ c, input.head? = some c → p c = false) :
    takeWhile1 p input = .err .other := by
  cases input with
  | nil => rfl
  | cons c t => simp [takeWhile1, spanGo, h c rfl]

theorem digit1_eval (ds rest : List Char) (h1 : ds ≠ [])
    (h2 : ∀ c ∈ ds, c.isDigit = true)
    (h3 : ∀ c, rest.head? = some c → c.isDigit = false) :
    digit1 (ds ++ rest) = .ok rest ds :=
  takeWhile1_eval _ _ _ h1 h2 h3

theorem digit1_fail (input : List Char)
    (h : ∀ c, input.head? = some c → c.isDigit = false) :
    digit1 input = .err .other :=
  takeWhile1_fail _ _ h

theorem stripOpt_hit (c : Char) (l : List Char) : stripOpt c (c :: l) = (l, true) := by
  simp [stripOpt]

theorem stripOpt_noHead (c : Char) (l : List Char)
    (h : ∀ x, l.head? = some x → x ≠ c) : stripOpt c l = (l, false) := by
  cases l with
  | nil => rfl
  | cons x t => simp [stripOpt, h x rfl]

theorem strip3_render (neg plus dollar : Bool) (l : List Char)
    (hl : ∀ c, l.head? = some c → c ≠ '-' ∧ c ≠ '+' ∧ c ≠ '$') :
    strip3 (signPrefix neg plus dollar ++ l) = (l, neg) := by
  have hm : ∀ x, l.head? = some x → x ≠ '-' := fun x hx => (hl x hx).1
  have hp : ∀ x, l.head? = some x → x ≠ '+' := fun x hx => (hl x hx).2.1
  have hd : ∀ x, l.head? = some x → x ≠ '$' := fun x hx => (hl x hx).2.2
  cases neg <;> cases plus <;> cases dollar <;>
    simp [signPrefix, strip3, stripOpt_hit,
      stripOpt_noHead '-' l hm, stripOpt_noHead '+' l hp, stripOpt_noHead '$' l hd,
      stripOpt_noHead '-' ('+' :: l) (by intro x hx; injection hx with hx; subst hx; decide),
      stripOpt_noHead '-' ('$' :: l) (by intro x hx; injection hx with hx; subst hx; decide),
      stripOpt_noHead '+' ('$' :: l) (by intro x hx; injection hx with hx; subst hx; decide),
      stripOpt_noHead '-' ('+' :: '$' :: l)
        (by intro x hx; injection hx with hx; subst hx; decide)]

/-! ## Digit-group list lemmas -/

theorem sepJoin_head_not_digit (gs : List (List Char)) (rest : List Char)
    (hrest : ∀ c, rest.head? = some c → c.isDigit = false) :
    ∀ c, (sepJoin gs ++ rest).head? = some c → c.isDigit = false := by
  cases gs with
  | nil => simpa [sepJoin] using hrest
  | cons g gs =>
    intro c hc
    simp [sepJoin] at hc
    subst hc
    decide

theorem sepLoopFuel_eval (gs : List (List Char)) : ∀ (fuel : Nat) (rest : List Char),
    (∀ g ∈ gs, g ≠ [] ∧ ∀ c ∈ g, c.isDigit = true) →
    (∀ c, rest.head? = some c → c.isDigit = false) →
    rest.head? ≠ some ',' →
    (sepJoin gs ++ rest).length < fuel →
    sepLoopFuel (charP ',') digit1 fuel (sepJoin gs ++ rest) = .ok rest gs := by
  induction gs with
  | nil =>
    intro fuel rest hg hrest hcomma hfuel
    cases fuel with
    | zero => omega
    | succ f =>
      show sepLoopFuel (charP ',') digit1 (f + 1) rest = .ok rest []
      cases rest with
      | nil => rfl
      | cons c t =>
        have hc : c ≠ ',' := fun h => hcomma (by simp [h])
        simp [sepLoopFuel, charP, hc]
  | cons g gs ih =>
    intro fuel rest hg hrest hcomma hfuel
    cases fuel with
    | zero => simp at hfuel
    | succ f =>
      have hgne : g ≠ [] := (hg g (by simp)).1
      have hgd : ∀ c ∈ g, c.isDigit = true := (hg g (by simp)).2
      have hgs : ∀ x ∈ gs, x ≠ [] ∧ ∀ c ∈ x, c.isDigit = true :=
        fun x hx => hg x (by simp [hx])
      have hd1 : digit1 (g ++ (sepJoin gs ++ rest)) = .ok (sepJoin gs ++ rest) g :=
        digit1_eval g (sepJoin gs ++ rest) hgne hgd (sepJoin_head_not_digit gs rest hrest)
      have hlen : (sepJoin gs ++ rest).length < (g ++ (sepJoin gs ++ rest)).length + 1 := by
        simp [List.length_append]; omega
      have hrec : sepLoopFuel (charP ',') digit1 f (sepJoin gs ++ rest) = .ok rest gs := by
        apply ih f rest hgs hrest hcomma
        have := hfuel
        simp [sepJoin, List.length_append] at this ⊢
        omega
      have hassoc : sepJoin (g :: gs) ++ rest = ',' :: (g ++ (sepJoin gs ++ rest)) := by
        simp [sepJoin]
      rw [hassoc]
      have hchar : charP ',' (',' :: (g ++ (sepJoin gs ++ rest))) =
          .ok (g ++ (sepJoin gs ++ rest)) ',' := by simp [charP]
      have hlt : (sepJoin gs ++ rest).length < (',' :: (g ++ (sepJoin gs ++ rest))).length := by
        simp [List.length_append]
        omega
      simp only [sepLoopFuel, hchar, hd1, if_pos hlt, hrec]

theorem separatedList0_eval (gs : List (List Char)) (rest : List Char)
    (hg : ∀ g ∈ gs, g ≠ [] ∧ ∀ c ∈ g, c.isDigit = true)
    (hrest : ∀ c, rest.head? = some c → c.isDigit = false)
    (hcomma : rest.head? ≠ some ',') :
    separatedList0 (charP ',') digit1 (joinGroups gs ++ rest) = .ok rest gs := by
  cases gs with
  | nil =>
    simp [joinGroups, separatedList0, digit1_fail rest hrest]
  | cons g gs =>
    have hgne : g ≠ [] := (hg g (by simp)).1
    have hgd : ∀ c ∈ g, c.isDigit = true := (hg g (by simp)).2
    have hgs : ∀ x ∈ gs, x ≠ [] ∧ ∀ c ∈ x, c.isDigit = true :=
      fun x hx => hg x (by simp [hx])
    have hd1 : digit1 (g ++ (sepJoin gs ++ rest)) = .ok (sepJoin gs ++ rest) g :=
      digit1_eval g (sepJoin gs ++ rest) hgne hgd (sepJoin_head_not_digit gs rest hrest)
    have hrec := sepLoopFuel_eval gs ((sepJoin gs ++ rest).length + 1) rest hgs hrest hcomma
      (by omega)
    show separatedList0 (charP ',') digit1 (g ++ sepJoin gs ++ rest) = .ok rest (g :: gs)
    rw [List.append_assoc]
    simp only [separatedList0, hd1, hrec]

/-! ## `dollar_amount` on rendered amount texts -/

theorem renderA_head_ok (gs : List (List Char)) (cs rest : List Char)
    (hg : ∀ g ∈ gs, g ≠ [] ∧ ∀ c ∈ g, c.isDigit = true) :
    ∀ c, (joinGroups gs ++ '.' :: (cs ++ rest)).head? = some c →
      c ≠ '-' ∧ c ≠ '+' ∧ c ≠ '$' := by
  cases gs with
  | nil =>
    intro c hc
    simp [joinGroups] at hc
    subst hc
    decide
  | cons g gs =>
    intro c hc
    rcases hg g (by simp) with ⟨hne, hd⟩
    cases g with
    | nil => exact absurd rfl hne
    | cons x t =>
      simp [joinGroups] at hc
      subst hc
      exact (isDigit_ne_marks (hd x (by simp))).imp id fun h => ⟨h.1, h.2.1⟩

theorem dollar_amount_eval (neg plus dollar : Bool) (gs : List (List Char))
    (cs rest : List Char)
    (hg : ∀ g ∈ gs, g ≠ [] ∧ ∀ c ∈ g, c.isDigit = true)
    (hc1 : cs ≠ []) (hc2 : ∀ c ∈ cs, c.isDigit = true)
    (hrest : ∀ c, rest.head? = some c → c.isDigit = false)
    (hbound : digitsToNat (joinAll gs) * 100 + digitsToNat cs ≤ i32MaxN) :
    dollar_amount (renderA neg plus dollar gs cs ++ rest) =
      .ok rest (amountValue neg gs cs) := by
  have hshape : renderA neg plus dollar gs cs ++ rest =
      signPrefix neg plus dollar ++ (joinGroups gs ++ '.' :: (cs ++ rest)) := by
    simp [renderA, List.append_assoc]
  have hstrip := strip3_render neg plus dollar (joinGroups gs ++ '.' :: (cs ++ rest))
    (renderA_head_ok gs cs rest hg)
  have hpoint : ∀ c, ('.' :: (cs ++ rest)).head? = some c → c.isDigit = false := by
    intro c hc
    injection hc with hc
    subst hc
    decide
  have hcomma : ('.' :: (cs ++ rest)).head? ≠ some ',' := by simp
  have hsep := separatedList0_eval gs ('.' :: (cs ++ rest)) hg hpoint hcomma
  have hchar : charP '.' ('.' :: (cs ++ rest)) = .ok (cs ++ rest) '.' := by simp [charP]
  have hd1 := digit1_eval cs rest hc1 hc2 hrest
  have hcb : ¬ digitsToNat cs > i32MaxN := by omega
  have hdb : ¬ (gs.length > 0 ∧ digitsToNat (joinAll gs) > i32MaxN) := by
    rintro ⟨-, h⟩
    omega
  have hdollars : (if gs.length > 0 then digitsToNat (joinAll gs) else 0) =
      digitsToNat (joinAll gs) := by
    cases gs with
    | nil => simp [joinAll, digitsToNat]
    | cons g gs => simp
  rw [hshape]
  simp only [dollar_amount, hstrip, hsep, hchar, hd1, hdollars]
  rw [if_neg hcb, if_neg hdb, if_neg (by omega)]
  rfl

theorem dollar_amount_noPoint (neg plus dollar : Bool) (ds rest : List Char)
    (h1 : ds ≠ []) (h2 : ∀ c ∈ ds, c.isDigit = true)
    (hrest : ∀ c, rest.head? = some c → c.isDigit = false ∧ c ≠ ',' ∧ c ≠ '.') :
    dollar_amount (signPrefix neg plus dollar ++ ds ++ rest) = .err .other := by
  have hjoin : ds ++ rest = joinGroups [ds] ++ rest := by simp [joinGroups, sepJoin]
  have hhead : ∀ c, (joinGroups [ds] ++ rest).head? = some c →
      c ≠ '-' ∧ c ≠ '+' ∧ c ≠ '$' := by
    intro c hc
    cases ds with
    | nil => exact absurd rfl h1
    | cons x t =>
      simp [joinGroups, sepJoin] at hc
      subst hc
      exact (isDigit_ne_marks (h2 x (by simp))).imp id fun h => ⟨h.1, h.2.1⟩
  have hstrip := strip3_render neg plus dollar (joinGroups [ds] ++ rest) hhead
  have hsep := separatedList0_eval [ds] rest
    (by intro g hgg; simp at hgg; subst hgg; exact ⟨h1, h2⟩)
    (fun c hc => (hrest c hc).1)
    (by intro hc; cases rest with
        | nil => simp at hc
        | cons c t =>
          injection hc with hc
          exact (hrest c rfl).2.1 hc)
  have hchar : charP '.' rest = .err .other := by
    cases rest with
    | nil => rfl
    | cons c t => simp [charP, (hrest c rfl).2.2]
  rw [List.append_assoc, hjoin]
  simp only [dollar_amount, hstrip, hsep, hchar]

theorem boaS_dollar_amount_headPoint (rest : List Char) :
    BoaStatement.dollar_amount ('.' :: rest) = .err .other := by
  have h1 : stripOpt '-' ('.' :: rest) = ('.' :: rest, false) :=
    stripOpt_noHead '-' _ (by intro x hx; injection hx with hx; subst hx; decide)
  have h2 : stripOpt '$' ('.' :: rest) = ('.' :: rest, false) :=
    stripOpt_noHead '$' _ (by intro x hx; injection hx with hx; subst hx; decide)
  have h3 : digit1 ('.' :: rest) = .err .other :=
    digit1_fail _ (by intro c hc; injection hc with hc; subst hc; decide)
  simp only [BoaStatement.dollar_amount, BoaStatement.strip2, h1, h2, separatedList1, h3]

/-! ## Decimal printing and the round-trip formatter -/

theorem digitsToNat_foldl (l : List Char) (a : Nat) :
    List.foldl (fun acc c => acc * 10 + (c.toNat - '0'.toNat)) a l =
      a * 10 ^ l.length + digitsToNat l := by
  induction l generalizing a with
  | nil => simp [digitsToNat]
  | cons c t ih =>
    show List.foldl _ (a * 10 + (c.toNat - '0'.toNat)) t = _
    rw [ih]
    have h0 : digitsToNat (c :: t) = (c.toNat - '0'.toNat) * 10 ^ t.length + digitsToNat t := by
      show List.foldl _ (0 * 10 + (c.toNat - '0'.toNat)) t = _
      rw [ih]
      ring
    rw [h0, List.length_cons]
    ring

theorem digitsToNat_cons (c : Char) (l : List Char) :
    digitsToNat (c :: l) = (c.toNat - '0'.toNat) * 10 ^ l.length + digitsToNat l := by
  show List.foldl _ (0 * 10 + (c.toNat - '0'.toNat)) l = _
  rw [digitsToNat_foldl]
  ring

theorem digitChar_isDigit (n : Nat) (h : n < 10) : (digitChar n).isDigit = true := by
  interval_cases n <;> decide

theorem digitChar_val (n : Nat) (h : n < 10) : (digitChar n).toNat - '0'.toNat = n := by
  interval_cases n <;> decide

theorem natToDigitsAux_zero (fuel : Nat) (acc : List Char) :
    natToDigitsAux fuel 0 acc = acc := by
  cases fuel <;> rfl

theorem natToDigitsAux_val : ∀ (fuel n : Nat) (acc : List Char), 0 < n → n ≤ fuel →
    digitsToNat (natToDigitsAux fuel n acc) = n * 10 ^ acc.length + digitsToNat acc := by
  intro fuel
  induction fuel with
  | zero => intro n acc h1 h2; omega
  | succ f ih =>
    intro n acc h1 h2
    match n, h1 with
    | m + 1, _ =>
      show digitsToNat (natToDigitsAux f ((m + 1) / 10) (digitChar ((m + 1) % 10) :: acc)) = _
      have hmod : (m + 1) % 10 < 10 := Nat.mod_lt _ (by omega)
      have hdm : (m + 1) / 10 * 10 + (m + 1) % 10 = m + 1 := by omega
      by_cases h10 : (m + 1) / 10 = 0
      · rw [h10, natToDigitsAux_zero, digitsToNat_cons, digitChar_val _ hmod]
        have : (m + 1) % 10 = m + 1 := by omega
        rw [this]
      · have hlt : (m + 1) / 10 < m + 1 := Nat.div_lt_self (by omega) (by omega)
        rw [ih _ _ (by omega) (by omega), digitsToNat_cons, digitChar_val _ hmod,
          List.length_cons]
        calc (m + 1) / 10 * 10 ^ (acc.length + 1) +
              ((m + 1) % 10 * 10 ^ acc.length + digitsToNat acc)
            = ((m + 1) / 10 * 10 + (m + 1) % 10) * 10 ^ acc.length + digitsToNat acc := by
              ring
          _ = (m + 1) * 10 ^ acc.length + digitsToNat acc := by rw [hdm]

theorem natToDigitsAux_digits : ∀ (fuel n : Nat) (acc : List Char),
    (∀ c ∈ acc, c.isDigit = true) → ∀ c ∈ natToDigitsAux fuel n acc, c.isDigit = true := by
  intro fuel
  induction fuel with
  | zero => intro n acc hacc; simpa [natToDigitsAux] using hacc
  | succ f ih =>
    intro n acc hacc
    match n with
    | 0 => simpa [natToDigitsAux] using hacc
    | m + 1 =>
      show ∀ c ∈ natToDigitsAux f ((m + 1) / 10) (digitChar ((m + 1) % 10) :: acc), _
      apply ih
      intro c hc
      rcases List.mem_cons.mp hc with h | h
      · subst h
        exact digitChar_isDigit _ (Nat.mod_lt _ (by omega))
      · exact hacc c h

theorem natToDigitsAux_ne_nil : ∀ (fuel n : Nat) (acc : List Char), 0 < n → n ≤ fuel →
    natToDigitsAux fuel n acc ≠ [] := by
  intro fuel
  induction fuel with
  | zero => intro n acc h1 h2; omega
  | succ f ih =>
    intro n acc h1 h2
    match n, h1 with
    | m + 1, _ =>
      show natToDigitsAux f ((m + 1) / 10) (digitChar ((m + 1) % 10) :: acc) ≠ []
      by_cases h10 : (m + 1) / 10 = 0
      · rw [h10, natToDigitsAux_zero]
        simp
      · have hlt : (m + 1) / 10 < m + 1 := Nat.div_lt_self (by omega) (by omega)
        exact ih _ _ (by omega) (by omega)

theorem natToDigits_val (n : Nat) : digitsToNat (natToDigits n) = n := by
  by_cases h : n = 0
  · subst h; decide
  · show digitsToNat (if n = 0 then ['0'] else natToDigitsAux n n []) = n
    rw [if_neg h, natToDigitsAux_val n n [] (by omega) (by omega)]
    simp [digitsToNat]

theorem natToDigits_digits (n : Nat) : ∀ c ∈ natToDigits n, c.isDigit = true := by
  by_cases h : n = 0
  · subst h; decide
  · show ∀ c ∈ (if n = 0 then ['0'] else natToDigitsAux n n []), c.isDigit = true
    rw [if_neg h]
    exact natToDigitsAux_digits n n [] (by simp)

theorem natToDigits_ne_nil (n : Nat) : natToDigits n ≠ [] := by
  by_cases h : n = 0
  · subst h; decide
  · show (if n = 0 then ['0'] else natToDigitsAux n n []) ≠ []
    rw [if_neg h]
    exact natToDigitsAux_ne_nil n n [] (by omega) (by omega)

theorem digitsToNat_twoDigits (r : Nat) (h : r < 100) :
    digitsToNat (twoDigits r) = r := by
  have h1 : r / 10 < 10 := by omega
  have h2 : r % 10 < 10 := Nat.mod_lt _ (by omega)
  show digitsToNat [digitChar (r / 10), digitChar (r % 10)] = r
  rw [digitsToNat_cons, digitsToNat_cons, digitChar_val _ h1, digitChar_val _ h2]
  show r / 10 * 10 ^ 1 + (r % 10 * 10 ^ 0 + digitsToNat []) = r
  have : digitsToNat [] = 0 := rfl
  rw [this]
  have := Nat.div_add_mod r 10
  omega

theorem twoDigits_digits (r : Nat) (h : r < 100) : ∀ c ∈ twoDigits r, c.isDigit = true := by
  intro c hc
  rcases List.mem_cons.mp hc with h1 | h1
  · subst h1; exact digitChar_isDigit _ (by omega)
  · rcases List.mem_cons.mp h1 with h2 | h2
    · subst h2; exact digitChar_isDigit _ (Nat.mod_lt _ (by omega))
    · simp at h2

/-- Parsing the canonical `sign$whole.dd` rendering of `v` recovers `v`. -/
theorem dollar_amount_format (v : Int) (h : v.natAbs ≤ i32MaxN) :
    dollar_amount (formatCanonical v) = .ok [] v := by
  have hq : v.natAbs / 100 * 100 + v.natAbs % 100 = v.natAbs := by
    have := Nat.div_add_mod v.natAbs 100
    omega
  have hr : v.natAbs % 100 < 100 := Nat.mod_lt _ (by omega)
  have hjoin : digitsToNat (joinAll [natToDigits (v.natAbs / 100)]) = v.natAbs / 100 := by
    show digitsToNat (natToDigits (v.natAbs / 100) ++ joinAll []) = _
    rw [show joinAll ([] : List (List Char)) = [] from rfl, List.append_nil, natToDigits_val]
  have hmain := dollar_amount_eval (decide (v < 0)) false true
    [natToDigits (v.natAbs / 100)] (twoDigits (v.natAbs % 100)) []
    (by intro g hg; simp at hg; subst hg
        exact ⟨natToDigits_ne_nil _, natToDigits_digits _⟩)
    (by intro hc
        have h1 : twoDigits (v.natAbs % 100) = [] := hc
        simp [twoDigits] at h1)
    (twoDigits_digits _ hr)
    (by intro c hc; simp at hc)
    (by rw [hjoin, digitsToNat_twoDigits _ hr]; omega)
  rw [List.append_nil] at hmain
  show dollar_amount (renderA (decide (v < 0)) false true
    [natToDigits (v.natAbs / 100)] (twoDigits (v.natAbs % 100))) = .ok [] v
  rw [hmain]
  congr 1
  show amountValue (decide (v < 0)) _ _ = v
  rw [amountValue, hjoin, digitsToNat_twoDigits _ hr, hq]
  by_cases hv : v < 0
  · rw [if_pos (by simpa using hv)]
    omega
  · rw [if_neg (by simpa using hv)]
    omega

/-! # Claims -/

/-- Claim C1, counterexample: the Chase assembler returns successfully on a
statement whose balances and transaction amounts violate
`end_balance - start_balance = sum of amounts + total_interest`
(`-5000` versus `-14500`), because it performs no whole-statement check. -/
theorem claim_C1_counterexample :
    Chase.parse_statement sampleChase = .ok "\n".toList sampleChaseSt
  ∧ sampleChaseSt.end_balance - sampleChaseSt.start_balance ≠
      Chase.sumAmounts sampleChaseSt.transactions + sampleChaseSt.total_interest := by
  decide

/-- Claim C1, amended: for the Bank of America credit and debit assemblers, a
successfully returned statement satisfies
`end_balance - start_balance = sum of amounts + total_interest` (the debit
format has no interest field, i.e. interest is zero), and whenever the parsed
fields violate the equation the assembler fails with a `Verify` error.  The
Chase assembler performs no such check (see the counterexample). -/
theorem claim_C1 :
    (∀ (input rest : List Char) (st : BoaCredit.BankOfAmericaCreditStatement),
        BoaCredit.parse_statement input = .ok rest st →
        st.end_balance - st.start_balance =
          BoaCredit.sumAmounts st.transactions + st.total_interest)
  ∧ (∀ (input rest : List Char) (st : BoaCredit.BankOfAmericaCreditStatement),
        BoaCredit.parse_statement_core input = .ok rest st →
        st.end_balance - st.start_balance ≠
          BoaCredit.sumAmounts st.transactions + st.total_interest →
        BoaCredit.parse_statement input = .err .verify)
  ∧ (∀ (input rest : List Char) (st : BoaDebit.BankOfAmericaDebitStatement),
        BoaDebit.parse_statement input = .ok rest st →
        st.end_balance - st.start_balance = BoaDebit.sumAmounts st.transactions)
  ∧ (∀ (input rest : List Char) (st : BoaDebit.BankOfAmericaDebitStatement),
        BoaDebit.parse_statement_core input = .ok rest st →
        st.end_balance - st.start_balance ≠ BoaDebit.sumAmounts st.transactions →
        BoaDebit.parse_statement input = .err .verify) := by
  refine ⟨?_, ?_, ?_, ?_⟩
  · intro input rest st h
    unfold BoaCredit.parse_statement at h
    cases hc : BoaCredit.parse_statement_core input with
    | ok r st' =>
      rw [hc] at h
      dsimp only at h
      by_cases hcond : st'.end_balance - st'.start_balance ≠
          BoaCredit.sumAmounts st'.transactions + st'.total_interest
      · rw [if_pos hcond] at h
        simp at h
      · rw [if_neg hcond] at h
        injection h with h1 h2
        subst h2
        push_neg at hcond
        exact hcond
    | err k => rw [hc] at h; simp at h
    | panicked => rw [hc] at h; simp at h
  · intro input rest st h hne
    unfold BoaCredit.parse_statement
    rw [h]
    dsimp only
    rw [if_pos hne]
  · intro input rest st h
    unfold BoaDebit.parse_statement at h
    cases hc : BoaDebit.parse_statement_core input with
    | ok r st' =>
      rw [hc] at h
      dsimp only at h
      by_cases hcond : st'.end_balance - st'.start_balance ≠
          BoaDebit.sumAmounts st'.transactions
      · rw [if_pos hcond] at h
        simp at h
      · rw [if_neg hcond] at h
        injection h with h1 h2
        subst h2
        push_neg at hcond
        exact hcond
    | err k => rw [hc] at h; simp at h
    | panicked => rw [hc] at h; simp at h
  · intro input rest st h hne
    unfold BoaDebit.parse_statement
    rw [h]
    dsimp only
    rw [if_pos hne]

/-- Claim C1, witness: the equation holds for the successful credit and debit
sample parses, and changing only the stated new balance makes both assemblers
fail with a `Verify` error. -/
theorem claim_C1_witness :
    sampleCreditSt.end_balance - sampleCreditSt.start_balance =
      BoaCredit.sumAmounts sampleCreditSt.transactions + sampleCreditSt.total_interest
  ∧ BoaCredit.parse_statement sampleCreditBad = .err .verify
  ∧ sampleDebitSt.end_balance - sampleDebitSt.start_balance =
      BoaDebit.sumAmounts sampleDebitSt.transactions
  ∧ BoaDebit.parse_statement sampleDebitBad = .err .verify :=
  ⟨claim_C1.1 sampleCredit ("\n".toList) sampleCreditSt (by decide),
   claim_C1.2.1 sampleCreditBad ("\n".toList) sampleCreditBadSt (by decide) (by decide),
   claim_C1.2.2.1 sampleDebit ("\n".toList) sampleDebitSt (by decide),
   claim_C1.2.2.2 sampleDebitBad ("\n".toList) sampleDebitBadSt (by decide) (by decide)⟩

/-- Claim C2: in both Bank of America section aggregators, once the header,
the transaction records, and the stated total have been parsed, the section
fails with a `Verify` (validation) error exactly when the stated total
differs from the sum of the parsed amounts, and otherwise succeeds returning
exactly the parsed transactions in input order. -/
theorem claim_C2 :
    (∀ (sd : Date) (acct hdr : List Char) (tt : BoaCredit.TransactionType)
       (input i1 i2 rest : List Char) (ts : List BoaCredit.Transaction) (total : Int),
        take_until_including hdr input = .ok i1 () →
        many1 (BoaCredit.transaction sd acct tt) i1 = .ok i2 ts →
        BoaCredit.sectionTotal i2 = .ok rest total →
        BoaCredit.transaction_section sd acct hdr tt input =
          (if BoaCredit.sumAmounts ts ≠ total then .err .verify else .ok rest ts))
  ∧ (∀ (hdr ftr : List Char) (tt : BoaDebit.TransactionType)
       (input i1 i2 rest : List Char) (ts : List BoaDebit.Transaction) (total : Int),
        BoaDebit.sectionOpen hdr input = .ok i1 () →
        many0 (BoaDebit.transaction ftr tt) i1 = .ok i2 ts →
        BoaDebit.sectionTotal ftr i2 = .ok rest total →
        BoaDebit.transaction_section hdr ftr tt input =
          (if BoaDebit.sumAmounts ts ≠ total then .err .verify else .ok rest ts)) := by
  constructor
  · intro sd acct hdr tt input i1 i2 rest ts total h1 h2 h3
    unfold BoaCredit.transaction_section
    simp only [pbind, h1, h2, h3]
  · intro hdr ftr tt input i1 i2 rest ts total h1 h2 h3
    unfold BoaDebit.transaction_section
    simp only [pbind, h1, h2, h3]

/-- Claim C2, witness: concrete credit and debit sections whose stated totals
match the transaction sums parse to exactly the listed transactions. -/
theorem claim_C2_witness :
    BoaCredit.transaction_section ⟨2024, 1, 1⟩ ("3456".toList)
      ("Payments and Other Credits\n\n".toList) BoaCredit.TransactionType.credit
      sampleSectC = .ok "END".toList [sampleSectCTx]
  ∧ BoaDebit.transaction_section ("Deposits and other additions".toList)
      ("Total deposits and other additions".toList) BoaDebit.TransactionType.deposit
      sampleSectD = .ok "\nZ".toList [sampleSectDTx] := by
  constructor
  · exact (claim_C2.1 ⟨2024, 1, 1⟩ ("3456".toList)
      ("Payments and Other Credits\n\n".toList) BoaCredit.TransactionType.credit
      sampleSectC sampleSectBodyC sampleSectTotC ("END".toList) [sampleSectCTx] 15000
      (by decide) (by decide) (by decide)).trans (by decide)
  · exact (claim_C2.2 ("Deposits and other additions".toList)
      ("Total deposits and other additions".toList) BoaDebit.TransactionType.deposit
      sampleSectD sampleSectBodyD sampleSectTotD ("\nZ".toList) [sampleSectDTx] 20000
      (by decide) (by decide) (by decide)).trans (by decide)

/-- Claim C3: the code panics instead of failing.  `month_day_year` on
`2/30/24` reaches `Date::from_ymd_opt(2024, 2, 30).unwrap()`, and the Chase
transaction parser reaches `infer_year(2, 30, start).unwrap()` — both are
Rust panics, not parse failures as the spec requires. -/
theorem claim_C3 :
    month_day_year ("2/30/24 x".toList) = .panicked
  ∧ Chase.transaction ⟨2024, 1, 31⟩ Chase.TransactionType.credit
      ("  2/30 STORE 5.00\n\n".toList) = .panicked := by
  decide

/-- Claim C4, counterexample: `dollar_amount` succeeds on `1.5`, whose
fraction part is a single digit, returning `1 * 100 + 5 = 105` — the parser
does not require exactly two fraction digits (`digit1` accepts one or more). -/
theorem claim_C4_counterexample : dollar_amount ("1.5".toList) = .ok [] (105 : Int) := by
  decide

/-- Claim C4, amended: `dollar_amount` succeeds whenever the fraction part is
one or more digits (not exactly two), returning
`sign * (digits_before_point * 100 + fraction_digits_value)`, and it fails
when no decimal point follows the digits (the fraction part is absent). -/
theorem claim_C4 :
    (∀ (neg plus dollar : Bool) (gs : List (List Char)) (cs rest : List Char),
        (∀ g ∈ gs, g ≠ [] ∧ ∀ c ∈ g, c.isDigit = true) → cs ≠ [] →
        (∀ c ∈ cs, c.isDigit = true) →
        (∀ c, rest.head? = some c → c.isDigit = false) →
        digitsToNat (joinAll gs) * 100 + digitsToNat cs ≤ i32MaxN →
        dollar_amount (renderA neg plus dollar gs cs ++ rest) =
          .ok rest (amountValue neg gs cs))
  ∧ (∀ (neg plus dollar : Bool) (ds rest : List Char),
        ds ≠ [] → (∀ c ∈ ds, c.isDigit = true) →
        (∀ c, rest.head? = some c → c.isDigit = false ∧ c ≠ ',' ∧ c ≠ '.') →
        dollar_amount (signPrefix neg plus dollar ++ ds ++ rest) = .err .other) :=
  ⟨dollar_amount_eval, dollar_amount_noPoint⟩

/-- Claim C4, witness: `1.5` parses to `105` (one fraction digit) and `15`
(no decimal point) is rejected. -/
theorem claim_C4_witness :
    dollar_amount ("1.5".toList) = .ok [] (amountValue false [['1']] ['5'])
  ∧ dollar_amount ("15".toList) = .err .other :=
  ⟨claim_C4.1 false false false [['1']] ['5'] [] (by decide) (by decide) (by decide)
      (by intro c hc; simp at hc) (by decide),
   claim_C4.2 false false false ['1', '5'] [] (by decide) (by decide)
      (by intro c hc; simp at hc)⟩

/-- Claim C5, counterexample: of the two cited currency-amount parsers, the
one local to `bank_of_america_statement.rs` uses `separated_list1` and
rejects `.50` instead of treating the missing integer part as zero. -/
theorem claim_C5_counterexample :
    BoaStatement.dollar_amount (".50".toList) = .err .other := by
  decide

/-- Claim C5, amended: the shared `common_parsers::dollar_amount` accepts an
amount with no integer part before the decimal point, treating it as zero
dollars (so `.50` parses to 50 minor units), but the separate
`dollar_amount` in `bank_of_america_statement.rs` requires at least one digit
group and fails on every input starting at a decimal point. -/
theorem claim_C5 :
    (∀ (cs rest : List Char), cs ≠ [] → (∀ c ∈ cs, c.isDigit = true) →
        (∀ c, rest.head? = some c → c.isDigit = false) →
        digitsToNat cs ≤ i32MaxN →
        dollar_amount ('.' :: (cs ++ rest)) = .ok rest ((digitsToNat cs : Nat) : Int))
  ∧ (∀ rest : List Char, BoaStatement.dollar_amount ('.' :: rest) = .err .other) := by
  constructor
  · intro cs rest h1 h2 h3 h4
    have h := dollar_amount_eval false false false [] cs rest (by simp) h1 h2 h3
      (by show digitsToNat (joinAll []) * 100 + digitsToNat cs ≤ i32MaxN
          have hz : digitsToNat (joinAll []) = 0 := rfl
          omega)
    have hz : digitsToNat (joinAll []) = 0 := rfl
    simpa [renderA, signPrefix, joinGroups, amountValue, hz] using h
  · exact boaS_dollar_amount_headPoint

/-- Claim C5, witness: `.75` parses to 75 minor units with the shared parser
and is rejected by the `bank_of_america_statement.rs` variant. -/
theorem claim_C5_witness :
    dollar_amount (".75".toList) = .ok [] (75 : Int)
  ∧ BoaStatement.dollar_amount (".75".toList) = .err .other :=
  ⟨claim_C5.1 ['7', '5'] [] (by decide) (by decide) (by intro c hc; simp at hc) (by decide),
   claim_C5.2 "75".toList⟩

/-- Claim C6: `infer_year` resolves the year to `reference.year + 1` exactly
when `month < reference.month` and to `reference.year` otherwise, and returns
`none` exactly when the resolved triple is not a real calendar date. -/
theorem claim_C6 (month day : Nat) (ref : Date) :
    (∀ dt, infer_year month day ref = some dt →
        dt = ⟨(if month < ref.month then ref.year + 1 else ref.year), month, day⟩)
  ∧ (infer_year month day ref = none ↔
        isValidYmd (if month < ref.month then ref.year + 1 else ref.year) month day
          = false) := by
  constructor
  · intro dt h
    simp only [infer_year, fromYmdOpt] at h
    by_cases hm : month < ref.month
    · rw [if_pos hm] at h ⊢
      split at h
      · injection h with h
        exact h.symm
      · simp at h
    · rw [if_neg hm] at h ⊢
      split at h
      · injection h with h
        exact h.symm
      · simp at h
  · simp only [infer_year, fromYmdOpt]
    split
    · next hv => simp [hv]
    · next hv => simp [hv]

/-- Claim C6, witness: December 31 against a March 2024 reference resolves to
year 2024 (month not less than the reference month), and February 30 against
the same reference is rejected as an invalid date in the inferred year 2025. -/
theorem claim_C6_witness :
    (⟨2024, 12, 31⟩ : Date) = ⟨2024, 12, 31⟩ ∧ isValidYmd 2025 2 30 = false := by
  constructor
  · exact (claim_C6 12 31 ⟨2024, 3, 10⟩).1 ⟨2024, 12, 31⟩ (by decide)
  · exact (claim_C6 2 30 ⟨2024, 3, 10⟩).2.mp (by decide)

/-- Claim C7: for every valid currency-amount text `[sign]digits[,digits]*.dd`
(whose value fits in `i32`), parsing yields the amount value, and re-parsing
the canonical `sign$whole.dd` rendering of that value yields it again — the
parse/format/parse round-trip is the identity. -/
theorem claim_C7 (neg : Bool) (g : List Char) (gs : List (List Char)) (c1 c2 : Char)
    (hg : ∀ x ∈ g :: gs, x ≠ [] ∧ ∀ c ∈ x, c.isDigit = true)
    (hc : c1.isDigit = true ∧ c2.isDigit = true)
    (hbound : digitsToNat (joinAll (g :: gs)) * 100 + digitsToNat [c1, c2] ≤ i32MaxN) :
    dollar_amount (renderA neg false false (g :: gs) [c1, c2]) =
      .ok [] (amountValue neg (g :: gs) [c1, c2])
  ∧ dollar_amount (formatCanonical (amountValue neg (g :: gs) [c1, c2])) =
      .ok [] (amountValue neg (g :: gs) [c1, c2]) := by
  have hcs : ∀ c ∈ [c1, c2], c.isDigit = true := by
    intro c hcc
    rcases List.mem_cons.mp hcc with h | h
    · subst h; exact hc.1
    · rcases List.mem_cons.mp h with h2 | h2
      · subst h2; exact hc.2
      · simp at h2
  have h1 := dollar_amount_eval neg false false (g :: gs) [c1, c2] [] hg
    (by simp) hcs (by intro c hcc; simp at hcc) hbound
  rw [List.append_nil] at h1
  refine ⟨h1, ?_⟩
  apply dollar_amount_format
  have habs : (amountValue neg (g :: gs) [c1, c2]).natAbs =
      digitsToNat (joinAll (g :: gs)) * 100 + digitsToNat [c1, c2] := by
    unfold amountValue
    cases neg <;> simp <;> omega
  rw [habs]
  exact hbound

/-- Claim C7, witness: `-1,234.56` parses to `-123456`, whose canonical form
`-$1234.56` re-parses to the same value. -/
theorem claim_C7_witness :
    dollar_amount ("-1,234.56".toList) = .ok [] (amountValue true [['1'], ['2', '3', '4']] ['5', '6'])
  ∧ dollar_amount (formatCanonical (amountValue true [['1'], ['2', '3', '4']] ['5', '6'])) =
      .ok [] (amountValue true [['1'], ['2', '3', '4']] ['5', '6']) :=
  claim_C7 true ['1'] [['2', '3', '4']] '5' '6' (by decide) (by decide) (by decide)

/-- Claim C8: when the optional fees section is absent — the credit format
peeks for a `Fees` blank-line header, the debit format for any occurrence of
`Service fees` — the fees step consumes nothing and contributes zero
transactions, and an otherwise-valid debit statement without a
`Service fees` section parses successfully. -/
theorem claim_C8 :
    (∀ (sd : Date) (sfx input : List Char),
        ("Fees\n\n".toList).isPrefixOf input = false →
        BoaCredit.feesStep sd sfx input = .ok input [])
  ∧ (∀ input : List Char, findSub "Service fees".toList input = none →
        BoaDebit.feesStep input = .ok input [])
  ∧ BoaDebit.parse_statement sampleDebit = .ok "\n".toList sampleDebitSt := by
  refine ⟨?_, ?_, by decide⟩
  · intro sd sfx input h
    have htag : tag ("Fees\n\n".toList) input = .err .other := by
      unfold tag
      rw [h]
      simp
    simp only [BoaCredit.feesStep, pbind, peek, optP]
    rw [htag]
    simp
  · intro input h
    have ht : takeUntilP ("Service fees".toList) input = .err .other := by
      unfold takeUntilP
      rw [h]
    simp only [BoaDebit.feesStep, pbind, peek, optP]
    rw [ht]
    simp

/-- Claim C8, witness: at inputs not starting a fees section, both fees steps
return no transactions without failing. -/
theorem claim_C8_witness :
    BoaCredit.feesStep ⟨2024, 1, 1⟩ ("3456".toList) ("TOTAL".toList) =
      .ok ("TOTAL".toList) []
  ∧ BoaDebit.feesStep ("\n".toList) = .ok ("\n".toList) [] :=
  ⟨claim_C8.1 ⟨2024, 1, 1⟩ ("3456".toList) ("TOTAL".toList) (by decide),
   claim_C8.2.1 ("\n".toList) (by decide)⟩

/-- Claim C9, counterexample: the end-to-end scenario exactly as stated — the
described account line, date range, balances, one credit transaction of
`$150.00`, consistent section and whole-statement totals, and no purchases
section — fails to parse, because the credit grammar unconditionally demands
a `Purchases and Adjustments` section containing at least one transaction
(`many1`). -/
theorem claim_C9_counterexample :
    BoaCredit.parse_statement sampleCreditScenario = .err .other := by
  decide

/-- Claim C9, amended: the scenario extended with the mandatory
`Purchases and Adjustments` section (one `$0.00` purchase) parses to a
statement whose account number ends in `3456`, `start_balance = 10000`,
`end_balance = 5000`, with exactly one transaction of amount `15000` among
the two parsed transactions (the claimed "exactly one transaction" is
impossible: both `many1` sections must contribute at least one). -/
theorem claim_C9 :
    BoaCredit.parse_statement sampleCredit = .ok "\n".toList sampleCreditSt
  ∧ sampleCreditSt.account_number.drop (sampleCreditSt.account_number.length - 4) =
      "3456".toList
  ∧ sampleCreditSt.start_balance = 10000
  ∧ sampleCreditSt.end_balance = 5000
  ∧ (sampleCreditSt.transactions.filter fun t => t.amount == 15000).length = 1
  ∧ sampleCreditSt.transactions.length = 2 := by
  decide

/-- Claim C10: an input whose `Account# ` anchor is followed by a token of
fewer than four characters makes the credit-format parser panic (the
out-of-range slice `&account_number[len - 4..]`), not return a parse
failure. -/
theorem claim_C10 : BoaCredit.parse_statement sampleShortAccount = .panicked := by
  decide
